import Mathlib

/-!
Verification of the pygameflow library (View / EventManager / Window
composition model), shallowly embedded from the Python source.

Conventions of the embedding:

* Python `dict`s (insertion ordered, unique keys) are association lists;
  `dictSet` is `d[k] = v` (update in place, else append), `dictPop` is
  `d.pop(k, None)`, `List.lookup` is `d.get(k)`.
* A bound method `obj.meth` is a `Callback`: the receiver (`Owner`) plus
  the function's `__name__`.  Two bound methods are the same callable
  exactly when receiver and function agree, which the pair captures.
* pygame event-type constants are distinct natural numbers (values as in
  pygame 2; only their distinctness matters to the code).
* Exceptions are modelled by `PyExc`; a function that can raise returns
  `Except PyExc _` or pairs its result with the exception it raises.
-/

namespace PGF

/-- The receiver of a bound method: the Window itself, or a View
(identified by a number; distinct Views are distinct receivers). -/
inductive Owner where
  | windowSelf : Owner
  | view : Nat → Owner
  deriving DecidableEq, Repr

/-- A Python bound method: receiver plus the function's `__name__`.
`EventManager` keys handlers by `callback.__name__`, i.e. by `method`. -/
structure Callback where
  owner : Owner
  method : String
  deriving DecidableEq, Repr

/-- Python exceptions raised by this code base. -/
inductive PyExc where
  | systemExit : PyExc
  | runtimeError : String → PyExc
  deriving DecidableEq, Repr

/-- Source: `d[k] = v` on a Python dict: replace the value at the first (unique)
occurrence of `k`, else append `(k, v)`. -/
def dictSet {α β : Type} [DecidableEq α] : List (α × β) → α → β → List (α × β)
  | [], k, v => [(k, v)]
  | (k', v') :: rest, k, v =>
      if k = k' then (k, v) :: rest else (k', v') :: dictSet rest k v

/-- Source: `d.pop(k, None)` on a Python dict: drop the entry at `k` if present. -/
def dictPop {α β : Type} [DecidableEq α] : List (α × β) → α → List (α × β)
  | [], _ => []
  | (k', v') :: rest, k =>
      if k = k' then rest else (k', v') :: dictPop rest k

/-- Source: `EventManager.event_handlers`: event type ↦ (`__name__` ↦ callback). -/
abbrev EventHandlers := List (Nat × List (String × Callback))

/-- Source: `EventManager.__init__`: `self.event_handlers = {}`. -/
def emInit : EventHandlers := []

/-- Source: `EventManager.add_event_handler(event_type, callback)`:
`handlers = self.event_handlers.setdefault(event_type, {});
 handlers[callback.__name__] = callback`. -/
def add_event_handler (m : EventHandlers) (event_type : Nat) (cb : Callback) :
    EventHandlers :=
  dictSet m event_type (dictSet ((List.lookup event_type m).getD []) cb.method cb)

/-- Source: `EventManager.remove_event_handler(event_type, callback)`:
`if handlers := self.event_handlers.get(event_type):
   handlers.pop(callback.__name__, None)`
(an empty inner dict is falsy, so the body is skipped). -/
def remove_event_handler (m : EventHandlers) (event_type : Nat) (cb : Callback) :
    EventHandlers :=
  match List.lookup event_type m with
  | none => m
  | some handlers =>
      if handlers.isEmpty then m
      else dictSet m event_type (dictPop handlers cb.method)

/-- The effective handler the manager holds for `event_type` under name
`name` (what `handle_events` would invoke for that slot). -/
def lookupHandler (m : EventHandlers) (event_type : Nat) (name : String) :
    Option Callback :=
  (List.lookup event_type m).bind fun handlers => List.lookup name handlers

/-- One call in a history against an `EventManager`. -/
inductive EMOp where
  | add : Nat → Callback → EMOp
  | remove : Nat → Callback → EMOp
  deriving DecidableEq, Repr

/-- Replay one call against the manager, as the source implements it. -/
def applyOp (m : EventHandlers) : EMOp → EventHandlers
  | .add ty cb => add_event_handler m ty cb
  | .remove ty cb => remove_event_handler m ty cb

/-- Replay a call history against a fresh `EventManager`. -/
def applyOps (ops : List EMOp) : EventHandlers :=
  ops.foldl applyOp emInit

/-- Modelled from the spec: the replay semantics the spec states for the
registry — adding keys the callback by its declared name and overwrites
any existing slot of that name for that event type; removing an absent
handler (or from an absent event type) is a no-op. -/
def specReplayStep (f : Nat → String → Option Callback) :
    EMOp → Nat → String → Option Callback
  | .add ty cb, ty', n =>
      if ty' = ty ∧ n = cb.method then some cb else f ty' n
  | .remove ty cb, ty', n =>
      if ty' = ty ∧ n = cb.method then none else f ty' n

/-- Modelled from the spec: the handler table obtained by replaying a call
history under the spec's semantics, starting from the empty table. -/
def specReplay (ops : List EMOp) : Nat → String → Option Callback :=
  ops.foldl specReplayStep (fun _ _ => none)

theorem dictSet_cons_eq {α β : Type} [DecidableEq α]
    (k : α) (b v : β) (rest : List (α × β)) :
    dictSet ((k, b) :: rest) k v = (k, v) :: rest := by
  simp [dictSet]

theorem dictSet_cons_ne {α β : Type} [DecidableEq α]
    (a k : α) (b v : β) (rest : List (α × β)) (h : ¬k = a) :
    dictSet ((a, b) :: rest) k v = (a, b) :: dictSet rest k v := by
  simp [dictSet, h]

theorem dictPop_cons_eq {α β : Type} [DecidableEq α]
    (k : α) (b : β) (rest : List (α × β)) :
    dictPop ((k, b) :: rest) k = rest := by
  simp [dictPop]

theorem dictPop_cons_ne {α β : Type} [DecidableEq α]
    (a k : α) (b : β) (rest : List (α × β)) (h : ¬k = a) :
    dictPop ((a, b) :: rest) k = (a, b) :: dictPop rest k := by
  simp [dictPop, h]

theorem lookup_cons_kv {α β : Type} [DecidableEq α]
    (a k : α) (b : β) (l : List (α × β)) :
    List.lookup k ((a, b) :: l) = if k = a then some b else List.lookup k l := by
  by_cases h : k = a
  · simp [List.lookup, h]
  · simp only [List.lookup, if_neg h]
    rw [show (k == a) = false by simpa using h]

theorem lookup_eq_none_of_not_mem_keys {α β : Type} [DecidableEq α]
    (k : α) (l : List (α × β)) (h : k ∉ l.map Prod.fst) :
    List.lookup k l = none := by
  induction l with
  | nil => rfl
  | cons p rest ih =>
      obtain ⟨a, b⟩ := p
      simp only [List.map_cons, List.mem_cons] at h
      push_neg at h
      rw [lookup_cons_kv, if_neg h.1, ih h.2]

theorem lookup_dictSet {α β : Type} [DecidableEq α]
    (m : List (α × β)) (k k' : α) (v : β) :
    List.lookup k' (dictSet m k v) = if k' = k then some v else List.lookup k' m := by
  induction m with
  | nil =>
      by_cases h : k' = k <;> simp [dictSet, lookup_cons_kv, h]
  | cons p rest ih =>
      obtain ⟨a, b⟩ := p
      by_cases hk : k = a
      · subst hk
        rw [dictSet_cons_eq]
        by_cases h' : k' = k <;> simp [lookup_cons_kv, h']
      · rw [dictSet_cons_ne _ _ _ _ _ hk]
        by_cases h' : k' = a
        · subst h'
          rw [lookup_cons_kv, if_pos rfl, lookup_cons_kv, if_pos rfl,
            if_neg (fun h => hk h.symm)]
        · rw [lookup_cons_kv, if_neg h', ih, lookup_cons_kv, if_neg h']

theorem lookup_dictPop {α β : Type} [DecidableEq α]
    (m : List (α × β)) (k k' : α) (hnd : (m.map Prod.fst).Nodup) :
    List.lookup k' (dictPop m k) =
      if k' = k then none else List.lookup k' m := by
  induction m with
  | nil => by_cases h : k' = k <;> simp [dictPop, h]
  | cons p rest ih =>
      obtain ⟨a, b⟩ := p
      simp only [List.map_cons, List.nodup_cons] at hnd
      by_cases hk : k = a
      · subst hk
        rw [dictPop_cons_eq]
        by_cases h' : k' = k
        · subst h'
          rw [if_pos rfl]
          exact lookup_eq_none_of_not_mem_keys _ _ hnd.1
        · rw [if_neg h', lookup_cons_kv, if_neg h']
      · rw [dictPop_cons_ne _ _ _ _ hk]
        by_cases h' : k' = a
        · subst h'
          rw [lookup_cons_kv, if_pos rfl, if_neg (fun h => hk h.symm), lookup_cons_kv,
            if_pos rfl]
        · rw [lookup_cons_kv, if_neg h', ih hnd.2, lookup_cons_kv, if_neg h']

theorem keys_dictSet_mem {α β : Type} [DecidableEq α]
    (m : List (α × β)) (k x : α) (v : β)
    (hx : x ∈ (dictSet m k v).map Prod.fst) :
    x = k ∨ x ∈ m.map Prod.fst := by
  induction m with
  | nil =>
      simp only [dictSet, List.map_cons, List.map_nil, List.mem_singleton] at hx
      exact Or.inl hx
  | cons p rest ih =>
      obtain ⟨a, b⟩ := p
      by_cases hk : k = a
      · subst hk
        rw [dictSet_cons_eq] at hx
        simp only [List.map_cons, List.mem_cons] at hx
        rcases hx with hx | hx
        · exact Or.inl hx
        · exact Or.inr (List.mem_cons_of_mem _ hx)
      · rw [dictSet_cons_ne _ _ _ _ _ hk] at hx
        simp only [List.map_cons, List.mem_cons] at hx
        rcases hx with hx | hx
        · exact Or.inr (by simp [hx])
        · rcases ih hx with h | h
          · exact Or.inl h
          · exact Or.inr (List.mem_cons_of_mem _ h)

theorem keys_dictSet {α β : Type} [DecidableEq α]
    (m : List (α × β)) (k : α) (v : β) (hnd : (m.map Prod.fst).Nodup) :
    ((dictSet m k v).map Prod.fst).Nodup := by
  induction m with
  | nil => simp [dictSet]
  | cons p rest ih =>
      obtain ⟨a, b⟩ := p
      simp only [List.map_cons, List.nodup_cons] at hnd
      by_cases hk : k = a
      · subst hk
        rw [dictSet_cons_eq]
        simp only [List.map_cons, List.nodup_cons]
        exact ⟨hnd.1, hnd.2⟩
      · rw [dictSet_cons_ne _ _ _ _ _ hk]
        simp only [List.map_cons, List.nodup_cons]
        refine ⟨?_, ih hnd.2⟩
        intro hmem
        rcases keys_dictSet_mem rest k a v hmem with h | h
        · exact hk h.symm
        · exact hnd.1 h

theorem keys_dictPop_sublist {α β : Type} [DecidableEq α]
    (m : List (α × β)) (k : α) :
    ((dictPop m k).map Prod.fst).Sublist (m.map Prod.fst) := by
  induction m with
  | nil => simp [dictPop]
  | cons p rest ih =>
      obtain ⟨a, b⟩ := p
      by_cases hk : k = a
      · subst hk
        rw [dictPop_cons_eq]
        exact List.sublist_cons_self _ _
      · rw [dictPop_cons_ne _ _ _ _ hk]
        simp only [List.map_cons]
        exact List.Sublist.cons₂ a ih

/-- The manager never holds two callbacks of the same name for one event
type: the inner dicts all have distinct keys. -/
def InnerNodup (m : EventHandlers) : Prop :=
  ∀ ty h, List.lookup ty m = some h → (h.map Prod.fst).Nodup

theorem remove_eq_of_lookup_none (m : EventHandlers) (ty : Nat) (cb : Callback)
    (h : List.lookup ty m = none) : remove_event_handler m ty cb = m := by
  unfold remove_event_handler
  rw [h]

theorem remove_eq_of_lookup_nil (m : EventHandlers) (ty : Nat) (cb : Callback)
    (h : List.lookup ty m = some []) : remove_event_handler m ty cb = m := by
  unfold remove_event_handler
  rw [h]
  rfl

theorem remove_eq_of_lookup_cons (m : EventHandlers) (ty : Nat) (cb : Callback)
    (q : String × Callback) (t : List (String × Callback))
    (h : List.lookup ty m = some (q :: t)) :
    remove_event_handler m ty cb = dictSet m ty (dictPop (q :: t) cb.method) := by
  unfold remove_event_handler
  rw [h]
  rfl

theorem lookupHandler_add (m : EventHandlers) (ty : Nat) (cb : Callback)
    (ty' : Nat) (n : String) :
    lookupHandler (add_event_handler m ty cb) ty' n =
      if ty' = ty ∧ n = cb.method then some cb else lookupHandler m ty' n := by
  unfold add_event_handler lookupHandler
  rw [lookup_dictSet]
  by_cases hty : ty' = ty
  · rw [if_pos hty]
    simp only [Option.some_bind, lookup_dictSet]
    by_cases hn : n = cb.method
    · rw [if_pos hn, if_pos ⟨hty, hn⟩]
    · rw [if_neg hn, if_neg (fun h => hn h.2), hty]
      cases hh : List.lookup ty m <;> simp [hh]
  · rw [if_neg hty, if_neg (fun h => hty h.1)]

theorem lookupHandler_remove (m : EventHandlers) (ty : Nat) (cb : Callback)
    (ty' : Nat) (n : String) (hnd : InnerNodup m) :
    lookupHandler (remove_event_handler m ty cb) ty' n =
      if ty' = ty ∧ n = cb.method then none else lookupHandler m ty' n := by
  cases hh : List.lookup ty m with
  | none =>
      rw [remove_eq_of_lookup_none m ty cb hh]
      by_cases hc : ty' = ty ∧ n = cb.method
      · rw [if_pos hc]
        unfold lookupHandler
        rw [hc.1, hh, Option.none_bind]
      · rw [if_neg hc]
  | some h =>
      cases h with
      | nil =>
          rw [remove_eq_of_lookup_nil m ty cb hh]
          by_cases hc : ty' = ty ∧ n = cb.method
          · rw [if_pos hc]
            unfold lookupHandler
            rw [hc.1, hh, Option.some_bind]
            rfl
          · rw [if_neg hc]
      | cons q t =>
          rw [remove_eq_of_lookup_cons m ty cb q t hh]
          unfold lookupHandler
          rw [lookup_dictSet]
          by_cases hty : ty' = ty
          · rw [if_pos hty]
            simp only [Option.some_bind]
            rw [lookup_dictPop _ _ _ (hnd ty (q :: t) hh)]
            by_cases hn : n = cb.method
            · rw [if_pos hn, if_pos ⟨hty, hn⟩]
            · rw [if_neg hn, if_neg (fun hx => hn hx.2), hty, hh, Option.some_bind]
          · rw [if_neg hty, if_neg (fun hx => hty hx.1)]

theorem innerNodup_add (m : EventHandlers) (ty : Nat) (cb : Callback)
    (hnd : InnerNodup m) : InnerNodup (add_event_handler m ty cb) := by
  intro ty' h hl
  unfold add_event_handler at hl
  rw [lookup_dictSet] at hl
  by_cases h' : ty' = ty
  · rw [if_pos h'] at hl
    cases hl
    apply keys_dictSet
    cases hh : List.lookup ty m with
    | none => simp [hh]
    | some h0 => simpa [hh] using hnd ty h0 hh
  · rw [if_neg h'] at hl
    exact hnd ty' h hl

theorem innerNodup_remove (m : EventHandlers) (ty : Nat) (cb : Callback)
    (hnd : InnerNodup m) : InnerNodup (remove_event_handler m ty cb) := by
  intro ty' h hl
  cases hh : List.lookup ty m with
  | none =>
      rw [remove_eq_of_lookup_none m ty cb hh] at hl
      exact hnd ty' h hl
  | some h0 =>
      cases h0 with
      | nil =>
          rw [remove_eq_of_lookup_nil m ty cb hh] at hl
          exact hnd ty' h hl
      | cons q t =>
          rw [remove_eq_of_lookup_cons m ty cb q t hh, lookup_dictSet] at hl
          by_cases h' : ty' = ty
          · rw [if_pos h'] at hl
            cases hl
            exact ((hnd ty (q :: t) hh).sublist (keys_dictPop_sublist (q :: t) cb.method))
          · rw [if_neg h'] at hl
            exact hnd ty' h hl

theorem innerNodup_applyOp (m : EventHandlers) (op : EMOp)
    (hnd : InnerNodup m) : InnerNodup (applyOp m op) := by
  cases op with
  | add ty cb => exact innerNodup_add m ty cb hnd
  | remove ty cb => exact innerNodup_remove m ty cb hnd

theorem lookupHandler_applyOp (m : EventHandlers) (op : EMOp)
    (f : Nat → String → Option Callback) (hnd : InnerNodup m)
    (hpt : ∀ ty n, lookupHandler m ty n = f ty n) (ty : Nat) (n : String) :
    lookupHandler (applyOp m op) ty n = specReplayStep f op ty n := by
  cases op with
  | add t cb =>
      simp only [applyOp, specReplayStep]
      rw [lookupHandler_add, hpt]
  | remove t cb =>
      simp only [applyOp, specReplayStep]
      rw [lookupHandler_remove _ _ _ _ _ hnd, hpt]

theorem foldl_applyOp_correct (ops : List EMOp) (m : EventHandlers)
    (f : Nat → String → Option Callback) (hnd : InnerNodup m)
    (hpt : ∀ ty n, lookupHandler m ty n = f ty n) :
    (∀ ty n, lookupHandler (ops.foldl applyOp m) ty n =
      (ops.foldl specReplayStep f) ty n) ∧ InnerNodup (ops.foldl applyOp m) := by
  induction ops generalizing m f with
  | nil => exact ⟨hpt, hnd⟩
  | cons op ops ih =>
      simp only [List.foldl_cons]
      exact ih (applyOp m op) (specReplayStep f op) (innerNodup_applyOp m op hnd)
        (lookupHandler_applyOp m op f hnd hpt)

/-- C2: for every finite sequence of `add_event_handler`/`remove_event_handler`
calls applied to a fresh `EventManager`, the resulting handler table for each
event type equals the table obtained by replaying the sequence under the
spec's semantics (adding keys the callback by its declared name and
overwrites any same-named slot for that event type; removing an absent
handler, or from an absent event type, is a no-op); consequently every event
type holds at most one callback per name. -/
theorem em_replay_correct (ops : List EMOp) :
    (∀ ty n, lookupHandler (applyOps ops) ty n = specReplay ops ty n) ∧
    (∀ ty h, List.lookup ty (applyOps ops) = some h → (h.map Prod.fst).Nodup) := by
  have base : ∀ ty n, lookupHandler emInit ty n = (fun _ _ => none : Nat → String → Option Callback) ty n := by
    intro ty n
    rfl
  have basend : InnerNodup emInit := by
    intro ty h hl
    cases hl
  exact foldl_applyOp_correct ops emInit _ basend base

/-- Witness for C2 at a concrete call history: two same-named adds for one
type followed by a removal of an absent handler. -/
theorem em_replay_correct_witness :
    lookupHandler
        (applyOps [.add 768 ⟨.view 0, "on_key_press"⟩,
          .add 768 ⟨.view 1, "on_key_press"⟩,
          .remove 1024 ⟨.view 0, "on_mouse_motion"⟩])
        768 "on_key_press" =
      specReplay [.add 768 ⟨.view 0, "on_key_press"⟩,
          .add 768 ⟨.view 1, "on_key_press"⟩,
          .remove 1024 ⟨.view 0, "on_mouse_motion"⟩]
        768 "on_key_press" ∧
    (([("on_key_press", (⟨.view 1, "on_key_press"⟩ : Callback))].map Prod.fst).Nodup) := by
  refine ⟨(em_replay_correct _).1 768 "on_key_press", ?_⟩
  exact (em_replay_correct [.add 768 ⟨.view 0, "on_key_press"⟩,
    .add 768 ⟨.view 1, "on_key_press"⟩,
    .remove 1024 ⟨.view 0, "on_mouse_motion"⟩]).2 768 _ (by rfl)

/-! ## Window and View -/

/- pygame event-type constants referenced by `Window.__register_events`
(values as in pygame 2; the code treats them as opaque distinct ints). -/

def QUIT : Nat := 256
def KEYDOWN : Nat := 768
def KEYUP : Nat := 769
def MOUSEMOTION : Nat := 1024
def MOUSEBUTTONDOWN : Nat := 1025
def MOUSEBUTTONUP : Nat := 1026
def MOUSEWHEEL : Nat := 1027
def WINDOWRESIZED : Nat := 32777
def WINDOWENTER : Nat := 32783
def WINDOWLEAVE : Nat := 32784
def WINDOWFOCUSGAINED : Nat := 32785
def WINDOWFOCUSLOST : Nat := 32786

/-- The Window state the claims touch: the instance `__dict__` entries that
shadow handler methods (`View.__register_callers` assigns these), the owned
`EventManager`, and the `_WindowContext`'s `active` flag. -/
structure WindowState where
  attrs : List (String × Callback)
  event_manager : EventHandlers
  ctx_active : Bool
  deriving DecidableEq, Repr

/-- Source: `__name__` of the class method found under attribute `attr` of `Window`:
the name-mangled demultiplexer attribute `_Window__on_mouse_motion` holds
the function whose `__name__` is `__on_mouse_motion`; every other handler
attribute equals its function's `__name__`. -/
def classMethodName (attr : String) : String :=
  if attr = "_Window__on_mouse_motion" then "__on_mouse_motion" else attr

/-- Python attribute lookup `getattr(window, attr)` over the handler
surface: the instance attribute when one was assigned, else the class
method bound to the window itself. -/
def winAttrOf (as : List (String × Callback)) (attr : String) : Callback :=
  (List.lookup attr as).getD ⟨Owner.windowSelf, classMethodName attr⟩

/-- The twelve registrations of `Window.__register_events`, in source
order: event type paired with the attribute the handler is read from. -/
def windowBindings : List (Nat × String) :=
  [(QUIT, "close"),
   (WINDOWFOCUSGAINED, "on_focus"),
   (WINDOWFOCUSLOST, "on_blur"),
   (KEYDOWN, "on_key_press"),
   (KEYUP, "on_key_release"),
   (WINDOWLEAVE, "on_mouse_leave"),
   (WINDOWENTER, "on_mouse_enter"),
   (MOUSEMOTION, "_Window__on_mouse_motion"),
   (MOUSEBUTTONDOWN, "on_mouse_press"),
   (MOUSEBUTTONUP, "on_mouse_release"),
   (MOUSEWHEEL, "on_mouse_scroll"),
   (WINDOWRESIZED, "on_resize")]

/-- The body of `Window.__register_events`: one `add_event_handler` per
binding, each handler read from the window's current attributes. -/
def registerEventsFold (bs : List (Nat × String))
    (as : List (String × Callback)) (m : EventHandlers) : EventHandlers :=
  bs.foldl (fun m p => add_event_handler m p.1 (winAttrOf as p.2)) m

/-- Source: `Window.__register_events` (also reached as
`window._Window__register_events()` from `View.__register_callers`). -/
def registerEvents (w : WindowState) : WindowState :=
  { w with event_manager :=
      registerEventsFold windowBindings w.attrs w.event_manager }

/-- Source: `Window.__init__` as far as the claims reach: fresh `EventManager`, no
instance handler overrides, inactive context, then `__register_events`.
(Size, title, flags and the screen surface do not enter any claim.) -/
def windowInit : WindowState :=
  registerEvents { attrs := [], event_manager := emInit, ctx_active := false }

/-- The nine Window attributes `View.__register_callers` assigns, in
source order. -/
def viewCallerNames : List String :=
  ["on_draw", "on_update", "on_key_press", "on_key_release",
   "on_mouse_leave", "on_mouse_enter", "on_mouse_press",
   "on_mouse_release", "on_mouse_scroll"]

/-- The attribute assignments of `View.__register_callers` for the View
identified by `v`: `self.window.on_draw = self.on_draw`, etc. -/
def assignCallers (v : Nat) (as : List (String × Callback)) :
    List (String × Callback) :=
  viewCallerNames.foldl (fun a n => dictSet a n ⟨Owner.view v, n⟩) as

/-- Source: `View.__register_callers`: assign the view's bound methods to the
window's handler attributes, then call `window._Window__register_events()`. -/
def registerCallers (v : Nat) (w : WindowState) : WindowState :=
  registerEvents { w with attrs := assignCallers v w.attrs }

/-- Source: `View.__init__(self, window)`: store the window reference and call
`self.__register_callers()`. -/
def viewInit (v : Nat) (w : WindowState) : WindowState :=
  registerCallers v w

/-- Source: `View.show()`: `self.__register_callers()` then `self.setup()`; the
default `setup` is a pass, and the claims concern Views with the default. -/
def viewShow (v : Nat) (w : WindowState) : WindowState :=
  registerCallers v w

theorem lookup_foldl_assign (names : List String) (v : Nat)
    (as : List (String × Callback)) (n : String) :
    List.lookup n
        (names.foldl (fun a n' => dictSet a n' ⟨Owner.view v, n'⟩) as) =
      if n ∈ names then some ⟨Owner.view v, n⟩ else List.lookup n as := by
  induction names generalizing as with
  | nil => simp
  | cons m names ih =>
      simp only [List.foldl_cons]
      rw [ih]
      by_cases hn : n ∈ names
      · rw [if_pos hn, if_pos (List.mem_cons_of_mem m hn)]
      · rw [if_neg hn, lookup_dictSet]
        by_cases hm : n = m
        · subst hm
          rw [if_pos rfl, if_pos (List.mem_cons_self n names)]
        · rw [if_neg hm, if_neg (by simp [hm, hn])]

theorem lookup_assignCallers (v : Nat) (as : List (String × Callback))
    (n : String) :
    List.lookup n (assignCallers v as) =
      if n ∈ viewCallerNames then some ⟨Owner.view v, n⟩ else List.lookup n as :=
  lookup_foldl_assign viewCallerNames v as n

theorem winAttrOf_assignCallers (v : Nat) (as : List (String × Callback))
    (attr : String) :
    winAttrOf (assignCallers v as) attr =
      if attr ∈ viewCallerNames then ⟨Owner.view v, attr⟩
      else winAttrOf as attr := by
  unfold winAttrOf
  rw [lookup_assignCallers]
  by_cases h : attr ∈ viewCallerNames
  · rw [if_pos h, if_pos h]
    rfl
  · rw [if_neg h, if_neg h]

theorem winAttrOf_assign_assign (u v : Nat) (as : List (String × Callback))
    (attr : String) :
    winAttrOf (assignCallers u (assignCallers v as)) attr =
      if attr ∈ viewCallerNames then ⟨Owner.view u, attr⟩
      else winAttrOf as attr := by
  rw [winAttrOf_assignCallers]
  by_cases h : attr ∈ viewCallerNames
  · rw [if_pos h, if_pos h]
  · rw [if_neg h, if_neg h, winAttrOf_assignCallers, if_neg h]

/-- Two activations by possibly different views leave winAttrOf with the
same `method` components (the nine caller attributes hold functions named
after the attribute on both sides). -/
theorem winAttrOf_assign_method_agree (u v : Nat)
    (as₁ as₂ : List (String × Callback))
    (h : ∀ attr, attr ∉ viewCallerNames → winAttrOf as₁ attr = winAttrOf as₂ attr)
    (attr : String) :
    (winAttrOf (assignCallers u as₁) attr).method =
      (winAttrOf (assignCallers v as₂) attr).method := by
  rw [winAttrOf_assignCallers, winAttrOf_assignCallers]
  by_cases hm : attr ∈ viewCallerNames
  · rw [if_pos hm, if_pos hm]
  · rw [if_neg hm, if_neg hm, h attr hm]

theorem regFold_nil (as : List (String × Callback)) (m : EventHandlers) :
    registerEventsFold [] as m = m := rfl

theorem regFold_cons (p : Nat × String) (bs : List (Nat × String))
    (as : List (String × Callback)) (m : EventHandlers) :
    registerEventsFold (p :: bs) as m =
      registerEventsFold bs as (add_event_handler m p.1 (winAttrOf as p.2)) := rfl

theorem lookupHandler_regFold_uncovered (bs : List (Nat × String))
    (as : List (String × Callback)) (m : EventHandlers) (ty : Nat) (n : String)
    (h : ∀ p ∈ bs, ¬(ty = p.1 ∧ n = (winAttrOf as p.2).method)) :
    lookupHandler (registerEventsFold bs as m) ty n = lookupHandler m ty n := by
  induction bs generalizing m with
  | nil => rfl
  | cons p bs ih =>
      rw [regFold_cons, ih _ (fun q hq => h q (List.mem_cons_of_mem p hq)),
        lookupHandler_add, if_neg (h p (List.mem_cons_self p bs))]

theorem regFold_ext (bs : List (Nat × String))
    (as₁ as₂ : List (String × Callback)) (m₁ m₂ : EventHandlers)
    (hattr : ∀ p ∈ bs, winAttrOf as₁ p.2 = winAttrOf as₂ p.2)
    (hm : ∀ ty n, (∀ p ∈ bs, ¬(ty = p.1 ∧ n = (winAttrOf as₁ p.2).method)) →
      lookupHandler m₁ ty n = lookupHandler m₂ ty n) :
    ∀ ty n, lookupHandler (registerEventsFold bs as₁ m₁) ty n =
      lookupHandler (registerEventsFold bs as₂ m₂) ty n := by
  induction bs generalizing m₁ m₂ with
  | nil =>
      intro ty n
      exact hm ty n (by simp)
  | cons p bs ih =>
      intro ty n
      rw [regFold_cons, regFold_cons]
      have hhead := hattr p (List.mem_cons_self p bs)
      refine ih _ _ (fun q hq => hattr q (List.mem_cons_of_mem p hq)) ?_ ty n
      intro ty' n' hun
      rw [lookupHandler_add, lookupHandler_add, ← hhead]
      by_cases hc : ty' = p.1 ∧ n' = (winAttrOf as₁ p.2).method
      · rw [if_pos hc, if_pos hc]
      · rw [if_neg hc, if_neg hc]
        refine hm ty' n' ?_
        intro q hq
        rcases List.mem_cons.1 hq with hq | hq
        · subst hq
          exact hc
        · exact hun q hq

theorem lookupHandler_regFold_self (bs : List (Nat × String))
    (as : List (String × Callback)) (m : EventHandlers)
    (hnd : (bs.map Prod.fst).Nodup) :
    ∀ p ∈ bs, lookupHandler (registerEventsFold bs as m) p.1
      (winAttrOf as p.2).method = some (winAttrOf as p.2) := by
  induction bs generalizing m with
  | nil => intro p hp; cases hp
  | cons q bs ih =>
      simp only [List.map_cons, List.nodup_cons] at hnd
      intro p hp
      rw [regFold_cons]
      rcases List.mem_cons.1 hp with hp | hp
      · subst hp
        rw [lookupHandler_regFold_uncovered]
        · rw [lookupHandler_add, if_pos ⟨rfl, rfl⟩]
        · intro q' hq' hcon
          exact hnd.1 (hcon.1 ▸ List.mem_map.2 ⟨q', hq', rfl⟩)
      · exact ih _ hnd.2 p hp

theorem winAttrOf_assign_congr (v : Nat)
    (as₁ as₂ : List (String × Callback))
    (h : ∀ attr, attr ∉ viewCallerNames → winAttrOf as₁ attr = winAttrOf as₂ attr)
    (attr : String) :
    winAttrOf (assignCallers v as₁) attr = winAttrOf (assignCallers v as₂) attr := by
  rw [winAttrOf_assignCallers, winAttrOf_assignCallers]
  by_cases hm : attr ∈ viewCallerNames
  · rw [if_pos hm, if_pos hm]
  · rw [if_neg hm, if_neg hm, h attr hm]

theorem windowBindings_types_nodup : (windowBindings.map Prod.fst).Nodup := by
  decide

theorem viewShow_attrs (v : Nat) (s : WindowState) :
    (viewShow v s).attrs = assignCallers v s.attrs := rfl

theorem viewShow_em (v : Nat) (s : WindowState) :
    (viewShow v s).event_manager =
      registerEventsFold windowBindings (assignCallers v s.attrs)
        s.event_manager := rfl

/-- C1: activating View A, then View B, then View A again leaves every
event-type slot of the window's registry exactly as A's activation left
it (first conjunct, over all event types and slot names), and — for the
standard slots a view activation installs — the handler is A's bound
method, not B's (second conjunct): no binding installed by B remains. -/
theorem view_show_round_trip (w : WindowState) (a b : Nat) :
    (∀ ty n, lookupHandler (viewShow a (viewShow b (viewShow a w))).event_manager ty n =
      lookupHandler (viewShow a w).event_manager ty n) ∧
    (∀ p ∈ windowBindings, p.2 ∈ viewCallerNames → a ≠ b →
      lookupHandler (viewShow a (viewShow b (viewShow a w))).event_manager p.1 p.2 =
        some ⟨Owner.view a, p.2⟩ ∧
      lookupHandler (viewShow a (viewShow b (viewShow a w))).event_manager p.1 p.2 ≠
        some ⟨Owner.view b, p.2⟩) := by
  have hbase : ∀ attr, attr ∉ viewCallerNames →
      winAttrOf (assignCallers b (assignCallers a w.attrs)) attr =
        winAttrOf w.attrs attr := by
    intro attr hm
    rw [winAttrOf_assign_assign, if_neg hm]
  have hA3A1 : ∀ attr,
      winAttrOf (assignCallers a (assignCallers b (assignCallers a w.attrs))) attr =
        winAttrOf (assignCallers a w.attrs) attr :=
    winAttrOf_assign_congr a _ _ hbase
  have hA2A1meth : ∀ attr,
      (winAttrOf (assignCallers b (assignCallers a w.attrs)) attr).method =
        (winAttrOf (assignCallers a w.attrs) attr).method := by
    intro attr
    by_cases hm : attr ∈ viewCallerNames
    · rw [winAttrOf_assign_assign, winAttrOf_assignCallers, if_pos hm, if_pos hm]
    · rw [hbase attr hm, winAttrOf_assignCallers, if_neg hm]
  constructor
  · intro ty n
    simp only [viewShow_em, viewShow_attrs]
    refine regFold_ext windowBindings _ _ _ _ (fun p _ => hA3A1 p.2) ?_ ty n
    intro ty' n' hun
    have hun2 : ∀ p ∈ windowBindings,
        ¬(ty' = p.1 ∧
          n' = (winAttrOf (assignCallers b (assignCallers a w.attrs)) p.2).method) := by
      intro p hp hc
      exact hun p hp ⟨hc.1, by rw [hc.2, hA2A1meth, ← hA3A1]⟩
    have hun1 : ∀ p ∈ windowBindings,
        ¬(ty' = p.1 ∧ n' = (winAttrOf (assignCallers a w.attrs) p.2).method) := by
      intro p hp hc
      exact hun p hp ⟨hc.1, by rw [hc.2, ← hA3A1]⟩
    rw [lookupHandler_regFold_uncovered _ _ _ _ _ hun2,
      lookupHandler_regFold_uncovered _ _ _ _ _ hun1]
  · intro p hp hpm hab
    simp only [viewShow_em, viewShow_attrs]
    have hself := lookupHandler_regFold_self windowBindings
      (assignCallers a (assignCallers b (assignCallers a w.attrs)))
      (registerEventsFold windowBindings (assignCallers b (assignCallers a w.attrs))
        (registerEventsFold windowBindings (assignCallers a w.attrs)
          w.event_manager))
      windowBindings_types_nodup p hp
    have hval : winAttrOf (assignCallers a (assignCallers b (assignCallers a w.attrs))) p.2 =
        ⟨Owner.view a, p.2⟩ := by
      rw [winAttrOf_assignCallers, if_pos hpm]
    rw [hval] at hself
    refine ⟨hself, ?_⟩
    rw [hself]
    intro hcon
    have h1 : (⟨Owner.view a, p.2⟩ : Callback) = ⟨Owner.view b, p.2⟩ :=
      Option.some_inj.1 hcon
    exact hab (Owner.view.inj (congrArg Callback.owner h1))

/-- Witness for C1 at a concrete round trip: fresh window, views 0 and 1,
KEYDOWN slot. -/
theorem view_show_round_trip_witness :
    lookupHandler (viewShow 0 (viewShow 1 (viewShow 0 windowInit))).event_manager
        768 "on_key_press" =
      lookupHandler (viewShow 0 windowInit).event_manager 768 "on_key_press" ∧
    lookupHandler (viewShow 0 (viewShow 1 (viewShow 0 windowInit))).event_manager
        768 "on_key_press" = some ⟨Owner.view 0, "on_key_press"⟩ ∧
    lookupHandler (viewShow 0 (viewShow 1 (viewShow 0 windowInit))).event_manager
        768 "on_key_press" ≠ some ⟨Owner.view 1, "on_key_press"⟩ := by
  refine ⟨(view_show_round_trip windowInit 0 1).1 768 "on_key_press", ?_, ?_⟩
  · exact ((view_show_round_trip windowInit 0 1).2 (768, "on_key_press")
      (by decide) (by decide) (by decide)).1
  · exact ((view_show_round_trip windowInit 0 1).2 (768, "on_key_press")
      (by decide) (by decide) (by decide)).2

/-! ## Mouse-motion demultiplexing -/

/-- A logical call issued by the mouse-motion demultiplexer. -/
inductive MotionCall where
  | motion : Callback → Int → Int → Int → Int → Int → MotionCall
  | drag : Callback → Int → Int → Int → Int → (Int × Int × Int) → Int → MotionCall
  deriving DecidableEq, Repr

/-- Source: `Window.__on_mouse_motion(x, y, dx, dy, buttons, modifiers)`: calls
`self.on_mouse_motion(x, y, dx, dy, modifiers)` when `buttons == (0, 0, 0)`
and `self.on_mouse_drag(x, y, dx, dy, buttons, modifiers)` otherwise; the
result lists the logical calls made, each with the callback the attribute
lookup resolves at call time. -/
def window_on_mouse_motion (w : WindowState) (x y dx dy : Int)
    (buttons : Int × Int × Int) (modifiers : Int) : List MotionCall :=
  if buttons = (0, 0, 0) then
    [.motion (winAttrOf w.attrs "on_mouse_motion") x y dx dy modifiers]
  else
    [.drag (winAttrOf w.attrs "on_mouse_drag") x y dx dy buttons modifiers]

/-- C3: a motion event with buttons `(0,0,0)` routes to `on_mouse_motion`
with `(x, y, dx, dy, modifiers)`; any other buttons tuple routes to
`on_mouse_drag` with `(x, y, dx, dy, buttons, modifiers)`; exactly one
logical call is made, never both. -/
theorem motion_demux (w : WindowState) (x y dx dy : Int)
    (buttons : Int × Int × Int) (modifiers : Int) :
    (buttons = (0, 0, 0) →
      window_on_mouse_motion w x y dx dy buttons modifiers =
        [.motion (winAttrOf w.attrs "on_mouse_motion") x y dx dy modifiers]) ∧
    (buttons ≠ (0, 0, 0) →
      window_on_mouse_motion w x y dx dy buttons modifiers =
        [.drag (winAttrOf w.attrs "on_mouse_drag") x y dx dy buttons modifiers]) ∧
    (window_on_mouse_motion w x y dx dy buttons modifiers).length = 1 := by
  unfold window_on_mouse_motion
  by_cases h : buttons = (0, 0, 0)
  · rw [if_pos h]
    exact ⟨fun _ => rfl, fun hc => absurd h hc, rfl⟩
  · rw [if_neg h]
    exact ⟨fun hc => absurd hc h, fun _ => rfl, rfl⟩

/-- Witness for C3 at concrete inputs (one motion, one drag). -/
theorem motion_demux_witness :
    window_on_mouse_motion windowInit 10 20 1 2 (0, 0, 0) 0 =
      [.motion (winAttrOf windowInit.attrs "on_mouse_motion") 10 20 1 2 0] ∧
    window_on_mouse_motion windowInit 10 20 1 2 (1, 0, 0) 0 =
      [.drag (winAttrOf windowInit.attrs "on_mouse_drag") 10 20 1 2 (1, 0, 0) 0] := by
  exact ⟨(motion_demux windowInit 10 20 1 2 (0, 0, 0) 0).1 (by decide),
    (motion_demux windowInit 10 20 1 2 (1, 0, 0) 0).2.1 (by decide)⟩

/-! ## View construction (C4) and reachable window states (C9) -/

theorem viewInit_attrs (v : Nat) (s : WindowState) :
    (viewInit v s).attrs = assignCallers v s.attrs := rfl

theorem viewInit_em (v : Nat) (s : WindowState) :
    (viewInit v s).event_manager =
      registerEventsFold windowBindings (assignCallers v s.attrs)
        s.event_manager := rfl

/-- Counterexample to C4: constructing `View(window)` on a fresh window
changes both the window's bound callback attributes and its registry
entries (here: the `on_draw` attribute and the KEYDOWN slot). -/
theorem view_construction_counterexample :
    List.lookup "on_draw" (viewInit 0 windowInit).attrs ≠
      List.lookup "on_draw" windowInit.attrs ∧
    lookupHandler (viewInit 0 windowInit).event_manager 768 "on_key_press" ≠
      lookupHandler windowInit.event_manager 768 "on_key_press" := by
  decide

/-- C4 amended: constructing `View(window)` binds the view to the window
and immediately performs the same handler installation as `show()` does
(without calling `setup()`): `View.__init__` invokes `__register_callers`,
so afterwards the nine caller attributes hold the view's methods and each
standard registry slot holds the handler read through the updated
attributes. -/
theorem view_construction_installs (w : WindowState) (v : Nat) :
    viewInit v w = viewShow v w ∧
    (∀ n ∈ viewCallerNames, winAttrOf (viewInit v w).attrs n = ⟨Owner.view v, n⟩) ∧
    (∀ p ∈ windowBindings,
      lookupHandler (viewInit v w).event_manager p.1
          ((winAttrOf (assignCallers v w.attrs) p.2).method) =
        some (winAttrOf (assignCallers v w.attrs) p.2)) := by
  refine ⟨rfl, ?_, ?_⟩
  · intro n hn
    rw [viewInit_attrs, winAttrOf_assignCallers, if_pos hn]
  · intro p hp
    rw [viewInit_em]
    exact lookupHandler_regFold_self windowBindings (assignCallers v w.attrs)
      w.event_manager windowBindings_types_nodup p hp

/-- Witness for the amended C4 at the fresh window, view 0, attribute
`on_draw` and the KEYDOWN binding. -/
theorem view_construction_installs_witness :
    viewInit 0 windowInit = viewShow 0 windowInit ∧
    winAttrOf (viewInit 0 windowInit).attrs "on_draw" = ⟨Owner.view 0, "on_draw"⟩ ∧
    lookupHandler (viewInit 0 windowInit).event_manager 768
        ((winAttrOf (assignCallers 0 windowInit.attrs) "on_key_press").method) =
      some (winAttrOf (assignCallers 0 windowInit.attrs) "on_key_press") := by
  refine ⟨(view_construction_installs windowInit 0).1, ?_, ?_⟩
  · exact (view_construction_installs windowInit 0).2.1 "on_draw" (by decide)
  · exact (view_construction_installs windowInit 0).2.2 (768, "on_key_press")
      (by decide)

/-- The window states reachable through the operations the claims cover:
`Window.__init__`, `View.__init__` and `View.show()`. -/
inductive Reachable : WindowState → Prop where
  | init : Reachable windowInit
  | view_init (v : Nat) (w : WindowState) : Reachable w → Reachable (viewInit v w)
  | view_show (v : Nat) (w : WindowState) : Reachable w → Reachable (viewShow v w)

/-- Invariant of reachable window states: no instance attribute ever
shadows `on_mouse_motion`, `on_mouse_drag` or the mangled demultiplexer
attribute, and the MOUSEMOTION registry slot always holds the window's
own demultiplexer. -/
theorem reachable_invariant (w : WindowState) (h : Reachable w) :
    (List.lookup "on_mouse_motion" w.attrs = none ∧
     List.lookup "on_mouse_drag" w.attrs = none ∧
     List.lookup "_Window__on_mouse_motion" w.attrs = none) ∧
    lookupHandler w.event_manager MOUSEMOTION "__on_mouse_motion" =
      some ⟨Owner.windowSelf, "__on_mouse_motion"⟩ := by
  induction h with
  | init => exact ⟨⟨rfl, rfl, rfl⟩, by decide⟩
  | view_init v w hw ih =>
      rw [viewInit_attrs, viewInit_em]
      refine ⟨⟨?_, ?_, ?_⟩, ?_⟩
      · rw [lookup_assignCallers, if_neg (by decide)]
        exact ih.1.1
      · rw [lookup_assignCallers, if_neg (by decide)]
        exact ih.1.2.1
      · rw [lookup_assignCallers, if_neg (by decide)]
        exact ih.1.2.2
      · have hwa : winAttrOf (assignCallers v w.attrs) "_Window__on_mouse_motion" =
            ⟨Owner.windowSelf, "__on_mouse_motion"⟩ := by
          rw [winAttrOf_assignCallers, if_neg (by decide)]
          unfold winAttrOf
          rw [ih.1.2.2]
          rfl
        have hs := lookupHandler_regFold_self windowBindings
          (assignCallers v w.attrs) w.event_manager windowBindings_types_nodup
          (MOUSEMOTION, "_Window__on_mouse_motion") (by decide)
        rw [hwa] at hs
        exact hs
  | view_show v w hw ih =>
      rw [viewShow_attrs, viewShow_em]
      refine ⟨⟨?_, ?_, ?_⟩, ?_⟩
      · rw [lookup_assignCallers, if_neg (by decide)]
        exact ih.1.1
      · rw [lookup_assignCallers, if_neg (by decide)]
        exact ih.1.2.1
      · rw [lookup_assignCallers, if_neg (by decide)]
        exact ih.1.2.2
      · have hwa : winAttrOf (assignCallers v w.attrs) "_Window__on_mouse_motion" =
            ⟨Owner.windowSelf, "__on_mouse_motion"⟩ := by
          rw [winAttrOf_assignCallers, if_neg (by decide)]
          unfold winAttrOf
          rw [ih.1.2.2]
          rfl
        have hs := lookupHandler_regFold_self windowBindings
          (assignCallers v w.attrs) w.event_manager windowBindings_types_nodup
          (MOUSEMOTION, "_Window__on_mouse_motion") (by decide)
        rw [hwa] at hs
        exact hs

/-- C9: view activation never rebinds the window's `on_mouse_motion` /
`on_mouse_drag` attributes; after any activation on a reachable window the
MOUSEMOTION registry slot still holds the window's private demultiplexer;
and every logical call the demultiplexer issues goes to the window's own
`on_mouse_motion` / `on_mouse_drag`, never to a view's overrides. -/
theorem view_overrides_never_dispatched (w : WindowState) (h : Reachable w)
    (v : Nat) :
    (List.lookup "on_mouse_motion" (viewShow v w).attrs =
        List.lookup "on_mouse_motion" w.attrs ∧
     List.lookup "on_mouse_drag" (viewShow v w).attrs =
        List.lookup "on_mouse_drag" w.attrs) ∧
    lookupHandler (viewShow v w).event_manager MOUSEMOTION "__on_mouse_motion" =
      some ⟨Owner.windowSelf, "__on_mouse_motion"⟩ ∧
    (∀ x y dx dy buttons modifiers,
      ∀ c ∈ window_on_mouse_motion (viewShow v w) x y dx dy buttons modifiers,
        c = .motion ⟨Owner.windowSelf, "on_mouse_motion"⟩ x y dx dy modifiers ∨
        c = .drag ⟨Owner.windowSelf, "on_mouse_drag"⟩ x y dx dy buttons modifiers) := by
  have hinv := reachable_invariant w h
  have hinv' := reachable_invariant (viewShow v w) (Reachable.view_show v w h)
  refine ⟨⟨?_, ?_⟩, hinv'.2, ?_⟩
  · rw [viewShow_attrs, lookup_assignCallers, if_neg (by decide)]
  · rw [viewShow_attrs, lookup_assignCallers, if_neg (by decide)]
  · intro x y dx dy buttons modifiers c hc
    unfold window_on_mouse_motion at hc
    by_cases hb : buttons = (0, 0, 0)
    · rw [if_pos hb] at hc
      left
      have : winAttrOf (viewShow v w).attrs "on_mouse_motion" =
          ⟨Owner.windowSelf, "on_mouse_motion"⟩ := by
        unfold winAttrOf
        rw [hinv'.1.1]
        rfl
      rw [this] at hc
      exact List.mem_singleton.1 hc
    · rw [if_neg hb] at hc
      right
      have : winAttrOf (viewShow v w).attrs "on_mouse_drag" =
          ⟨Owner.windowSelf, "on_mouse_drag"⟩ := by
        unfold winAttrOf
        rw [hinv'.1.2.1]
        rfl
      rw [this] at hc
      exact List.mem_singleton.1 hc

/-- Witness for C9 at the fresh window, view 0 and a concrete motion
event with no buttons held. -/
theorem view_overrides_never_dispatched_witness :
    List.lookup "on_mouse_motion" (viewShow 0 windowInit).attrs =
      List.lookup "on_mouse_motion" windowInit.attrs ∧
    lookupHandler (viewShow 0 windowInit).event_manager MOUSEMOTION
        "__on_mouse_motion" = some ⟨Owner.windowSelf, "__on_mouse_motion"⟩ ∧
    (MotionCall.motion ⟨Owner.windowSelf, "on_mouse_motion"⟩ 10 20 1 2 0 =
        MotionCall.motion ⟨Owner.windowSelf, "on_mouse_motion"⟩ 10 20 1 2 0 ∨
     MotionCall.motion ⟨Owner.windowSelf, "on_mouse_motion"⟩ 10 20 1 2 0 =
        MotionCall.drag ⟨Owner.windowSelf, "on_mouse_drag"⟩ 10 20 1 2 (0, 0, 0) 0) := by
  refine ⟨(view_overrides_never_dispatched windowInit Reachable.init 0).1.1,
    (view_overrides_never_dispatched windowInit Reachable.init 0).2.1,
    (view_overrides_never_dispatched windowInit Reachable.init 0).2.2
      10 20 1 2 (0, 0, 0) 0 _ ?_⟩
  decide

/-! ## Process-wide state: `window_commands`, `Window.close`, run context -/

/-- Process-wide state: the module-level `_window` reference of
`window_commands` and the wrapped runtime's init state (`pygame.init()`
runs at package import, `pygame.quit()` shuts it down). -/
structure Sys where
  window : Option WindowState
  pygame_initialized : Bool
  deriving DecidableEq, Repr

/-- The state right after importing the package, before any `Window` is
constructed: `_window = None`, runtime initialized. -/
def sysFresh : Sys :=
  { window := none, pygame_initialized := true }

/-- Source: `window_commands.set_window(window)`. -/
def set_window (s : Sys) (w : WindowState) : Sys :=
  { s with window := some w }

/-- Source: `window_commands.get_window()`: raises
`RuntimeError("No window is active.")` when `_window` is falsy (it is
either `None` or a `Window` instance, and instances are always truthy). -/
def get_window (s : Sys) : Except PyExc WindowState :=
  match s.window with
  | none => .error (.runtimeError "No window is active.")
  | some w => .ok w

/-- Source: `Window.__init__` together with its module-level effect: the fresh
window state is stored as the active window via `set_window(self)`, and
the constructed instance is returned. -/
def windowNew (s : Sys) : Sys × WindowState :=
  (set_window s windowInit, windowInit)

/-- Source: `window_commands.exit()`: `pygame.quit(); sys.exit()` — shuts the
runtime down and raises `SystemExit` unconditionally. -/
def exitFn (s : Sys) : Sys × PyExc :=
  ({ s with pygame_initialized := false }, .systemExit)

/-- Source: `Window.close(self)`: `self._ctx.active = False; exit()`.  Returns
the updated window and process state together with the exception `exit()`
raises; there is no normal return. -/
def windowClose (w : WindowState) (s : Sys) : (WindowState × Sys) × PyExc :=
  (({ w with ctx_active := false }, (exitFn s).1), (exitFn s).2)

/-- Source: `window_commands.close_window()`: `get_window().close()`, then
`_window = None`.  `close()` always raises `SystemExit`, so control never
reaches the assignment clearing `_window` (and when no window is active,
`get_window()` raises before it as well); the second component is the
exception that propagates. -/
def close_window (s : Sys) : Sys × Option PyExc :=
  match s.window with
  | none => (s, some (.runtimeError "No window is active."))
  | some w =>
      ({ (windowClose w s).1.2 with window := some (windowClose w s).1.1 },
        some (windowClose w s).2)

/-- Source: `_WindowContext.__exit__(exc_type, exc_val, exc_tb)` around the loop
body of `Window.run`: with a pending exception it returns `False`
(propagate, touch nothing); otherwise it sets `self.active = False` and
calls `self.window.close()`.  Result: final (window, process) state,
whether `close()` was invoked, and the exception propagating out of the
`with` block. -/
def ctxExit (exc : Option PyExc) (w : WindowState) (s : Sys) :
    (WindowState × Sys) × Bool × Option PyExc :=
  match exc with
  | some e => ((w, s), false, some e)
  | none =>
      ((windowClose { w with ctx_active := false } s).1, true,
        some (windowClose { w with ctx_active := false } s).2)

/-- C5: the run context is asymmetric.  On normal exit of the loop body it
flips the run-state to inactive and invokes `close()`; on exceptional exit
the exception propagates out of `run()` unchanged, `close()` is not
invoked, and the runtime is left standing (window and process state
untouched). -/
theorem run_context_asymmetric :
    (∀ w s, (ctxExit none w s).1.1.ctx_active = false ∧
      (ctxExit none w s).2.1 = true) ∧
    (∀ e w s, ctxExit (some e) w s = ((w, s), false, some e)) := by
  exact ⟨fun w s => ⟨rfl, rfl⟩, fun e w s => rfl⟩

/-- C6: `get_window()` before any `Window` is constructed fails with the
NotActive condition (`RuntimeError("No window is active.")`); after
constructing a `Window`, `get_window()` returns exactly that instance. -/
theorem get_window_spec :
    get_window sysFresh = .error (.runtimeError "No window is active.") ∧
    (∀ s, get_window (windowNew s).1 = .ok (windowNew s).2) := by
  exact ⟨rfl, fun s => rfl⟩

/-- C10: `Window.close()` never returns normally: it always sets the
run-state inactive, shuts the runtime down, and raises `SystemExit`; hence
the statement after the `close()` call in `close_window` never executes —
the `_window` reference is never cleared by it. -/
theorem window_close_never_returns :
    (∀ w s, (windowClose w s).2 = PyExc.systemExit ∧
      (windowClose w s).1.1.ctx_active = false ∧
      (windowClose w s).1.2.pygame_initialized = false) ∧
    (∀ s, (close_window s).1.window.isSome = s.window.isSome) := by
  refine ⟨fun w s => ⟨rfl, rfl, rfl⟩, fun s => ?_⟩
  cases h : s.window with
  | none => simp [close_window, h]
  | some w => simp [close_window, windowClose, exitFn, h]

deriving instance DecidableEq for Except

/-- Counterexample to C8: after constructing a window and calling
`close_window()`, the active-window reference is not cleared and a
subsequent `get_window()` does not fail with NotActive. -/
theorem close_window_counterexample :
    (close_window (windowNew sysFresh).1).1.window ≠ none ∧
    get_window (close_window (windowNew sysFresh).1).1 ≠
      Except.error (PyExc.runtimeError "No window is active.") := by
  decide

/-- C8 amended: `close_window()` invokes `close()`, which deactivates the
run context and shuts the runtime down, but `close()` raises `SystemExit`
before the assignment clearing `_window` executes: the active-window
reference is left pointing at the closed window, so a subsequent
`get_window()` (were the `SystemExit` caught) returns the closed window
instead of failing with NotActive. -/
theorem close_window_no_clear (s : Sys) (w : WindowState)
    (h : s.window = some w) :
    (close_window s).2 = some PyExc.systemExit ∧
    (close_window s).1.pygame_initialized = false ∧
    (close_window s).1.window = some { w with ctx_active := false } ∧
    get_window (close_window s).1 = .ok { w with ctx_active := false } := by
  simp [close_window, windowClose, exitFn, get_window, h]

/-- Witness for the amended C8 at the concrete post-construction state. -/
theorem close_window_no_clear_witness :
    (close_window (windowNew sysFresh).1).2 = some PyExc.systemExit ∧
    (close_window (windowNew sysFresh).1).1.window =
      some { windowInit with ctx_active := false } :=
  ⟨(close_window_no_clear (windowNew sysFresh).1 windowInit rfl).1,
    (close_window_no_clear (windowNew sysFresh).1 windowInit rfl).2.2.1⟩

/-! ## Timers (`_time.schedule` / `UserEvent.schedule`) -/

/-- The runtime's repeating-timer table: event type ↦ interval. -/
abbrev Timers := List (Nat × Int)

/-- Source: `pygame.time.set_timer(event, millis)` at its interface boundary: a
positive `millis` installs a repeating timer that re-posts `event` every
`millis` milliseconds until cancelled; `millis = 0` cancels the event's
timer.  (This code base passes only positive values or `0`.) -/
def set_timer (t : Timers) (event : Nat) (ms : Int) : Timers :=
  if ms = 0 then dictPop t event else dictSet t event ms

/-- Source: `_time.schedule(event, ms)`: raises
`RuntimeError` unless `ms` is a positive integer, else installs the
repeating timer. -/
def schedule (event : Nat) (ms : Int) (t : Timers) : Except PyExc Timers :=
  if ms ≤ 0 then .error (.runtimeError "`ms` should be a non-zero integer")
  else .ok (set_timer t event ms)

/-- Source: `_time.unschedule(event)`: `pygame.time.set_timer(event, 0)`. -/
def unschedule (event : Nat) (t : Timers) : Timers :=
  set_timer t event 0

/-- A custom user event, reduced to its allocated event type
(`pygame.USEREVENT + counter`). -/
structure UserEvent where
  type : Nat
  deriving DecidableEq, Repr

/-- Source: `UserEvent.schedule(self, ms)`: the same guard, the timer keyed by
this event's type. -/
def userEventSchedule (u : UserEvent) (ms : Int) (t : Timers) :
    Except PyExc Timers :=
  if ms ≤ 0 then .error (.runtimeError "`ms` should be a non-zero integer")
  else .ok (set_timer t u.type ms)

/-- C7: for `ms ≤ 0` both `_time.schedule` and `UserEvent.schedule` fail
with the InvalidArgument condition (a `RuntimeError`) and install no
timer; for `ms > 0` both succeed and install a repeating timer for the
event at interval `ms`, which stays until `unschedule` removes it. -/
theorem schedule_spec (event : Nat) (ms : Int) (t : Timers)
    (hnd : (t.map Prod.fst).Nodup) :
    (ms ≤ 0 →
      schedule event ms t = .error (.runtimeError "`ms` should be a non-zero integer") ∧
      userEventSchedule ⟨event⟩ ms t =
        .error (.runtimeError "`ms` should be a non-zero integer")) ∧
    (0 < ms →
      schedule event ms t = .ok (dictSet t event ms) ∧
      userEventSchedule ⟨event⟩ ms t = .ok (dictSet t event ms) ∧
      List.lookup event (dictSet t event ms) = some ms ∧
      List.lookup event (unschedule event (dictSet t event ms)) = none) := by
  constructor
  · intro hle
    unfold schedule userEventSchedule
    rw [if_pos hle]
    exact ⟨rfl, rfl⟩
  · intro hpos
    have hne : ¬ms ≤ 0 := not_le.2 hpos
    have hnz : ¬ms = 0 := fun hc => hne (le_of_eq hc)
    refine ⟨?_, ?_, ?_, ?_⟩
    · unfold schedule set_timer
      rw [if_neg hne, if_neg hnz]
    · unfold userEventSchedule set_timer
      rw [if_neg hne, if_neg hnz]
    · rw [lookup_dictSet, if_pos rfl]
    · unfold unschedule set_timer
      rw [if_pos rfl, lookup_dictPop _ _ _ (keys_dictSet t event ms hnd),
        if_pos rfl]

/-- Witness for C7: `schedule(e, -5)` fails, `schedule(e, 16)` succeeds
and the timer stays until `unschedule`. -/
theorem schedule_spec_witness :
    schedule 7 (-5) [] = .error (.runtimeError "`ms` should be a non-zero integer") ∧
    schedule 7 16 [] = .ok (dictSet [] 7 16) ∧
    List.lookup 7 (dictSet ([] : Timers) 7 16) = some 16 ∧
    List.lookup 7 (unschedule 7 (dictSet ([] : Timers) 7 16)) = none := by
  refine ⟨((schedule_spec 7 (-5) [] (by decide)).1 (by decide)).1, ?_, ?_, ?_⟩
  · exact ((schedule_spec 7 16 [] (by decide)).2 (by decide)).1
  · exact ((schedule_spec 7 16 [] (by decide)).2 (by decide)).2.2.1
  · exact ((schedule_spec 7 16 [] (by decide)).2 (by decide)).2.2.2

end PGF
